import Mathlib

namespace Fyp

/-- JSON values as produced by the JavaScript JSON.parse used in
ChatInterface.tsx. Numbers keep their lexical parts (sign, integer digits,
fraction digits, exponent sign and digits); only their truthiness is ever
consumed by the code modelled here. -/
inductive JsonValue where
  | null
  | bool (b : Bool)
  | num (neg : Bool) (intPart : String) (fracPart : String) (expNeg : Bool) (expPart : String)
  | str (s : String)
  | arr (elems : List JsonValue)
  | obj (fields : List (String × JsonValue))

/-- JSON whitespace characters accepted by JSON.parse. -/
def isJsonWs (c : Char) : Bool :=
  c = ' ' || c = '\t' || c = '\n' || c = '\r'

/-- Drop leading JSON whitespace. -/
def skipWs : List Char → List Char
  | [] => []
  | c :: cs => if isJsonWs c then skipWs cs else c :: cs

/-- Value of a hexadecimal digit, if the character is one. -/
def hexVal (c : Char) : Option Nat :=
  if '0' ≤ c ∧ c ≤ '9' then some (c.toNat - 48)
  else if 'a' ≤ c ∧ c ≤ 'f' then some (c.toNat - 87)
  else if 'A' ≤ c ∧ c ≤ 'F' then some (c.toNat - 55)
  else none

/-- Parse the four hex digits of a \uXXXX escape, returning the code unit. -/
def parseUnicodeEsc (cs : List Char) : Option (Nat × List Char) :=
  match cs with
  | a :: b :: c :: d :: rest =>
    match hexVal a, hexVal b, hexVal c, hexVal d with
    | some x, some y, some z, some w => some ((((x * 16 + y) * 16 + z) * 16 + w), rest)
    | _, _, _, _ => none
  | _ => none

/-- Convert a sequence of UTF-16 code units to characters, combining valid
surrogate pairs; a lone surrogate becomes U+FFFD (JavaScript strings would
keep the lone unit, which a scalar-based string cannot represent). -/
def unitsToChars : List Nat → List Char
  | [] => []
  | n :: rest =>
    if 0xD800 ≤ n ∧ n < 0xDC00 then
      match rest with
      | m :: rest2 =>
        if 0xDC00 ≤ m ∧ m < 0xE000 then
          Char.ofNat (0x10000 + (n - 0xD800) * 0x400 + (m - 0xDC00)) :: unitsToChars rest2
        else Char.ofNat 0xFFFD :: unitsToChars (m :: rest2)
      | [] => [Char.ofNat 0xFFFD]
    else if 0xDC00 ≤ n ∧ n < 0xE000 then Char.ofNat 0xFFFD :: unitsToChars rest
    else Char.ofNat n :: unitsToChars rest

/-- Parse the body of a JSON string (after the opening quote), accumulating
UTF-16 code units. Returns the string and the rest of the input. -/
def parseStringBody (fuel : Nat) (cs : List Char) (acc : List Nat) : Option (String × List Char) :=
  match fuel with
  | 0 => none
  | fuel + 1 =>
    match cs with
    | [] => none
    | '"' :: rest => some (String.mk (unitsToChars acc.reverse), rest)
    | '\\' :: e :: rest =>
      if e = '"' then parseStringBody fuel rest (34 :: acc)
      else if e = '\\' then parseStringBody fuel rest (92 :: acc)
      else if e = '/' then parseStringBody fuel rest (47 :: acc)
      else if e = 'b' then parseStringBody fuel rest (8 :: acc)
      else if e = 'f' then parseStringBody fuel rest (12 :: acc)
      else if e = 'n' then parseStringBody fuel rest (10 :: acc)
      else if e = 'r' then parseStringBody fuel rest (13 :: acc)
      else if e = 't' then parseStringBody fuel rest (9 :: acc)
      else if e = 'u' then
        match parseUnicodeEsc rest with
        | some (n, rest2) => parseStringBody fuel rest2 (n :: acc)
        | none => none
      else none
    | c :: rest =>
      if c.toNat < 0x20 then none
      else parseStringBody fuel rest (c.toNat :: acc)

/-- Take the longest prefix of decimal digits. -/
def digitsSpan : List Char → List Char × List Char
  | [] => ([], [])
  | c :: rest =>
    if c.isDigit then
      let (ds, r) := digitsSpan rest
      (c :: ds, r)
    else ([], c :: rest)

/-- Parse an optional exponent part and build the number value. -/
def parseExp (neg : Bool) (ip fp : List Char) (cs : List Char) : Option (JsonValue × List Char) :=
  match cs with
  | c :: r =>
    if c = 'e' ∨ c = 'E' then
      let (en, r2) : Bool × List Char :=
        match r with
        | '+' :: rr => (false, rr)
        | '-' :: rr => (true, rr)
        | _ => (false, r)
      match digitsSpan r2 with
      | ([], _) => none
      | (ds, r3) => some (.num neg (String.mk ip) (String.mk fp) en (String.mk ds), r3)
    else some (.num neg (String.mk ip) (String.mk fp) false "", c :: r)
  | [] => some (.num neg (String.mk ip) (String.mk fp) false "", [])

/-- Parse an optional fraction part, then the exponent. -/
def parseFrac (neg : Bool) (ip : List Char) (cs : List Char) : Option (JsonValue × List Char) :=
  match cs with
  | '.' :: r =>
    match digitsSpan r with
    | ([], _) => none
    | (ds, r2) => parseExp neg ip ds r2
  | _ => parseExp neg ip [] cs

/-- Parse a JSON number per the JSON grammar. -/
def parseNumber (cs : List Char) : Option (JsonValue × List Char) :=
  let (neg, cs1) : Bool × List Char :=
    match cs with
    | '-' :: r => (true, r)
    | _ => (false, cs)
  match cs1 with
  | c :: r =>
    if c = '0' then parseFrac neg ['0'] r
    else if c.isDigit then
      let (ds, r2) := digitsSpan r
      parseFrac neg (c :: ds) r2
    else none
  | [] => none

/-- Parser mode: a single value, the element list of a non-empty array, or
the field list of a non-empty object. The three modes stand for the mutually
recursive productions of the JSON grammar; a single fuelled function keeps
the recursion structural. -/
inductive ParseMode where
  | value
  | arrElems (acc : List JsonValue)
  | objFields (acc : List (String × JsonValue))

/-- Recursive-descent JSON parsing. In value mode: one JSON value after
optional whitespace. In array mode: one value then a comma (continue) or a
closing bracket. In object mode: a quoted key, a colon, a value, then a
comma (continue) or a closing brace. -/
def parseStep (fuel : Nat) (mode : ParseMode) (cs : List Char) : Option (JsonValue × List Char) :=
  match fuel with
  | 0 => none
  | fuel + 1 =>
    match mode with
    | .value =>
      match skipWs cs with
      | [] => none
      | c :: rest =>
        if c = '\x7b' then
          match skipWs rest with
          | '\x7d' :: r2 => some (.obj [], r2)
          | _ => parseStep fuel (.objFields []) rest
        else if c = '[' then
          match skipWs rest with
          | ']' :: r2 => some (.arr [], r2)
          | _ => parseStep fuel (.arrElems []) rest
        else if c = '"' then
          match parseStringBody (rest.length + 1) rest [] with
          | some (s, r2) => some (.str s, r2)
          | none => none
        else if c = 't' then
          match rest with
          | 'r' :: 'u' :: 'e' :: r2 => some (.bool true, r2)
          | _ => none
        else if c = 'f' then
          match rest with
          | 'a' :: 'l' :: 's' :: 'e' :: r2 => some (.bool false, r2)
          | _ => none
        else if c = 'n' then
          match rest with
          | 'u' :: 'l' :: 'l' :: r2 => some (.null, r2)
          | _ => none
        else if c = '-' ∨ c.isDigit then parseNumber (c :: rest)
        else none
    | .arrElems acc =>
      match parseStep fuel .value cs with
      | none => none
      | some (v, rest) =>
        match skipWs rest with
        | ',' :: r2 => parseStep fuel (.arrElems (v :: acc)) r2
        | ']' :: r2 => some (.arr (v :: acc).reverse, r2)
        | _ => none
    | .objFields acc =>
      match skipWs cs with
      | '"' :: r =>
        match parseStringBody (r.length + 1) r [] with
        | none => none
        | some (k, r2) =>
          match skipWs r2 with
          | ':' :: r3 =>
            match parseStep fuel .value r3 with
            | none => none
            | some (v, r4) =>
              match skipWs r4 with
              | ',' :: r5 => parseStep fuel (.objFields ((k, v) :: acc)) r5
              | '\x7d' :: r5 => some (.obj ((k, v) :: acc).reverse, r5)
              | _ => none
          | _ => none
      | _ => none

/-- Parse one JSON value. -/
def parseValue (fuel : Nat) (cs : List Char) : Option (JsonValue × List Char) :=
  parseStep fuel .value cs

/-- JSON.parse: a single JSON value with only whitespace around it; `none`
models a thrown SyntaxError. -/
def jsonParse (s : String) : Option JsonValue :=
  match parseValue (4 * s.length + 16) s.data with
  | some (v, rest) => if (skipWs rest).isEmpty then some v else none
  | none => none

/-- Last binding for a key, matching the overwrite semantics JSON.parse gives
duplicate object keys. -/
def lookupLast : List (String × JsonValue) → String → Option JsonValue
  | [], _ => none
  | (k, v) :: rest, key =>
    match lookupLast rest key with
    | some r => some r
    | none => if k = key then some v else none

/-- JavaScript property access `v.key` on a parsed JSON value; `none` models
`undefined` (property access on a non-object JSON value yields undefined). -/
def getField (v : JsonValue) (key : String) : Option JsonValue :=
  match v with
  | .obj fields => lookupLast fields key
  | _ => none

/-- All characters of a number part are zero digits. -/
def allZeroDigits (s : String) : Bool :=
  s.data.all (fun c => c = '0')

/-- JavaScript truthiness of a parsed JSON value. -/
def truthy : JsonValue → Bool
  | .null => false
  | .bool b => b
  | .num _ ip fp _ _ => !(allZeroDigits ip && allZeroDigits fp)
  | .str s => !(s = "")
  | .arr _ => true
  | .obj _ => true

/-- The JavaScript `a || b` operator on parsed JSON values. -/
def jsOr (a b : JsonValue) : JsonValue :=
  if truthy a then a else b

/-- Escape one character the way JSON.stringify escapes string contents. -/
def escapeJsonChar (c : Char) : List Char :=
  if c = '"' then ['\\', '"']
  else if c = '\\' then ['\\', '\\']
  else if c = '\x08' then ['\\', 'b']
  else if c = '\t' then ['\\', 't']
  else if c = '\n' then ['\\', 'n']
  else if c = '\x0c' then ['\\', 'f']
  else if c = '\r' then ['\\', 'r']
  else if c.toNat < 0x20 then
    let hexDigit : Nat → Char := fun n => if n < 10 then Char.ofNat (48 + n) else Char.ofNat (87 + n - 10)
    ['\\', 'u', '0', '0', hexDigit (c.toNat / 16), hexDigit (c.toNat % 16)]
  else [c]

/-- JSON.stringify of a string value. -/
def quoteJsonString (s : String) : String :=
  "\"" ++ String.mk (s.data.map escapeJsonChar).flatten ++ "\""

/-- JSON.stringify of the object literal storing text and images, exactly as
storeMessageInDB and sendMessage build it: keys in insertion order, no
spacing. -/
def stringifyTextImages (text : String) (images : List String) : String :=
  "\x7b\"text\":" ++ quoteJsonString text ++ ",\"images\":[" ++
    String.intercalate "," (images.map quoteJsonString) ++ "]\x7d"

/-- Falsiness of `s.trim()` in the input guards: the string holds only
whitespace, so its trim is the empty string. -/
def jsTrimEmpty (s : String) : Bool :=
  s.data.all (fun c => c.isWhitespace)

/-- The `content.startsWith('\x7b')` check of parseMessageContent. -/
def startsWithLBrace (s : String) : Bool :=
  s.data.head? = some '\x7b'

/-- The `content.endsWith('\x7d')` check of parseMessageContent. -/
def endsWithRBrace (s : String) : Bool :=
  s.data.getLast? = some '\x7d'

/-- Result of parseMessageContent. The text field is a JSON value because
`parsed.text` can be any JSON value at runtime; for plain content it is the
content string itself. -/
structure MessageContent where
  text : JsonValue
  images : List JsonValue

/-- The `Array.isArray(parsed.images) ? parsed.images : []` selection. -/
def imagesOf : Option JsonValue → List JsonValue
  | some (.arr l) => l
  | _ => []

/-- parseMessageContent from ChatInterface.tsx: attempt a structured parse
only when the string is brace-delimited; use the parsed object when it has a
text field; otherwise (or on parse failure) fall back to plain text. -/
def parseMessageContent (content : String) : MessageContent :=
  if startsWithLBrace content && endsWithRBrace content then
    match jsonParse content with
    | some parsed =>
      match getField parsed "text" with
      | some t => { text := jsOr t (.str ""), images := imagesOf (getField parsed "images") }
      | none => { text := .str content, images := [] }
    | none => { text := .str content, images := [] }
  else { text := .str content, images := [] }

/-- Content-string construction shared by storeMessageInDB and the optimistic
placeholder in sendMessage: structured serialization only when at least one
image is attached, otherwise the plain text. -/
def encodeContent (text : String) (images : List String) : String :=
  if images.length > 0 then stringifyTextImages text images else text

/-- A string takes the structured-decode path of parseMessageContent: it is
brace-delimited, parses as JSON, and the parsed value has a text field. -/
def looksStructured (s : String) : Bool :=
  startsWithLBrace s && endsWithRBrace s &&
    (match jsonParse s with
     | some v => (getField v "text").isSome
     | none => false)

/-- A message record. `ref` models JavaScript object identity (every
allocation is distinct); `id` is the store identifier, absent (undefined) on
optimistic placeholders. Fields not consumed by the modelled code
(timestamps) are omitted. -/
structure Msg where
  ref : Nat
  id : Option Nat
  role : String
  content : String
  model : Option String
deriving Repr, DecidableEq

/-- The realtime INSERT subscription callback of ChatInterface.tsx: append the
pushed record unless some in-memory message already has its identifier
(`prev.some(msg => msg.id === newMessage.id)`). -/
def mergeMessage (prev : List Msg) (newMessage : Msg) : List Msg :=
  if prev.any (fun m => m.id == newMessage.id) then prev
  else prev ++ [newMessage]

/-- A conversation message as handed to the provider clients: only role and
content are consumed by them. Content is a JSON value because sendMessage
replaces it with the decoded `text` field. -/
structure ChatMsg where
  role : String
  content : JsonValue

/-- One part of a multimodal request message. -/
inductive ApiPart where
  | text (t : JsonValue)
  | imageUrl (url : String)

/-- Request message content: a plain value or a multimodal part list. -/
inductive ApiContent where
  | plain (c : JsonValue)
  | parts (l : List ApiPart)

/-- One message of an outgoing provider request. -/
structure ApiMsg where
  role : String
  content : ApiContent

/-- The JavaScript `array.slice(-10)`: the last ten elements, or the whole
array when it is shorter. -/
def jsSlice10 {α : Type} (l : List α) : List α :=
  l.drop (l.length - 10)

/-- The JavaScript `string.includes(sub)` substring test. -/
def jsIncludes (s sub : String) : Bool :=
  s.data.tails.any (fun t => sub.data.isPrefixOf t)

/-- modelSupportsVision from imagehandling.ts: only the Groq llama-4 vision
families are recognised. -/
def modelSupportsVision (modelName : String) : Bool :=
  jsIncludes modelName "llama-4-scout" || jsIncludes modelName "llama-4-maverick"

/-- createImageMessage from imagehandling.ts: a user message whose content is
a text part (with a fallback prompt for falsy text) followed by one
image-url part per image, in order. -/
def createImageMessage (text : JsonValue) (images : List String) : ApiMsg :=
  ⟨"user", .parts (.text (jsOr text (.str "What's in this image?")) :: images.map ApiPart.imageUrl)⟩

/-- Text-only request message used by the Groq client. -/
def toTextApiMsg (m : ChatMsg) : ApiMsg :=
  ⟨m.role, .plain m.content⟩

/-- The request messages getGroqCompletion sends: with images, the last ten
history messages with the final one reshaped into a multimodal payload; with
no images, the whole history mapped to text messages. `none` models the
TypeError thrown when the sliced history is empty and an image payload is
requested. -/
def groqApiMessages (messages : List ChatMsg) (imageData : Option (List String)) :
    Option (List ApiMsg) :=
  if (imageData.getD []).length > 0 then
    let recent := jsSlice10 messages
    match recent.getLast? with
    | none => none
    | some lastMessage =>
      let others := recent.dropLast.map toTextApiMsg
      some (others ++ [⟨lastMessage.role,
        .parts (.text (jsOr lastMessage.content (.str "What's in this image?")) ::
          (imageData.getD []).map ApiPart.imageUrl)⟩])
  else some (messages.map toTextApiMsg)

/-- Role cleanup getOllamaCompletion applies: anything that is not assistant
becomes user. -/
def ollamaCleanRole (role : String) : String :=
  if role == "assistant" then "assistant" else "user"

/-- The request messages getOllamaCompletion sends: always the last ten
history messages; when the model supports vision and images are supplied the
final message becomes an image message, otherwise text only. `none` models
the TypeError on an empty sliced history in the vision branch. -/
def ollamaChatMessages (messages : List ChatMsg) (model : String)
    (imageData : Option (List String)) : Option (List ApiMsg) :=
  let hasVisionSupport := modelSupportsVision model
  let recent := jsSlice10 messages
  if hasVisionSupport && (imageData.getD []).length > 0 then
    match recent.getLast? with
    | none => none
    | some lastMessage =>
      let others := recent.dropLast.map (fun m => ApiMsg.mk (ollamaCleanRole m.role) (.plain m.content))
      some (others ++ [createImageMessage lastMessage.content (imageData.getD [])])
  else
    some (recent.map (fun m => ApiMsg.mk (ollamaCleanRole m.role) (.plain m.content)))

/-- The error message getOllamaCompletion's availability catch throws. Every
failure of the inner availability block — including its own deliberate
`No models found in Ollama` and `No models available in Ollama` throws — is
caught there and replaced by this generic message. -/
def ollamaUnavailableMsg : String :=
  "Ollama server not available or not running at http://localhost:11434. Please make sure Ollama is installed and running."

/-- The message of the internal throw for an empty installed-model list; it
never escapes getOllamaCompletion because the availability catch rewraps it. -/
def noModelsAvailableMsg : String :=
  "No models available in Ollama"

/-- Outcome of the fresh `/api/tags` query: network or HTTP failure, or a
response whose `models` field is absent/null (`none`) or a list of names. -/
inductive TagsResult where
  | fetchFail
  | ok (modelsField : Option (List String))

/-- Model resolution of getOllamaCompletion: re-validate the requested model
against the freshly queried installed models; substitute the first installed
model when absent; any failure in this block (fetch failure, missing models
field, zero installed models) is caught by the availability catch and
surfaces as the generic unavailable error. -/
def resolveOllamaModel (tags : TagsResult) (model : String) : Except String String :=
  match tags with
  | .fetchFail => .error ollamaUnavailableMsg
  | .ok none => .error ollamaUnavailableMsg
  | .ok (some availableModels) =>
    if availableModels.contains model then .ok model
    else
      match availableModels with
      | first :: _ => .ok first
      | [] => .error ollamaUnavailableMsg

/-- getOllamaCompletion with injected collaborator responses: resolve the
model, build the request (a TypeError escapes if the history is empty in the
vision branch), then interpret the chat response; `chatResp = .ok none`
models a body whose `message.content` is not a string. -/
def getOllamaCompletion (tags : TagsResult) (chatResp : Except String (Option String))
    (messages : List ChatMsg) (model : String) (imageData : Option (List String)) :
    Except String String :=
  match resolveOllamaModel tags model with
  | .error e => .error e
  | .ok m =>
    match ollamaChatMessages messages m imageData with
    | none => .error "Cannot read properties of undefined (reading 'content')"
    | some _ =>
      match chatResp with
      | .error e => .error e
      | .ok none => .error "Invalid response format from Ollama"
      | .ok (some c) => .ok c

/-- Observable steps of the Send pipeline, in order: persistence writes,
history fetches, local placeholder insertion of the thinking marker,
provider invocations, and the title read/rename. -/
inductive Event where
  | insertMessage (role : String) (content : String)
  | fetchMessages
  | addThinkingPlaceholder
  | providerCall (name : String)
  | fetchChatTitle
  | updateChatTitle (title : String)
deriving Repr, DecidableEq

/-- The session mode flag. -/
inductive Mode where
  | online
  | offline
deriving Repr, DecidableEq

/-- Injected collaborator outcomes for one Send: configuration flags, fresh
references for the two optimistic placeholders, and the results of each
awaited call in program order. -/
structure SendEnv where
  userPresent : Bool
  chatPresent : Bool
  groqKeyPresent : Bool
  refUser : Nat
  refAi : Nat
  storeUser : Except String (List Msg)
  fetchAll : Except String (List Msg)
  complete : Except String String
  storeAssistant : Except String (List Msg)
  chatTitle : Except String String
  storeErrorMsg : Except String (List Msg)

/-- Component state read by sendMessage. -/
structure SendState where
  messages : List Msg
  mode : Mode
  sending : Bool
  ollamaAvailable : Bool
  error : Option String
deriving Repr, DecidableEq

/-- Final component state and the emitted event trace of one Send. -/
structure SendResult where
  messages : List Msg
  error : Option String
  sending : Bool
  events : List Event
deriving Repr, DecidableEq

/-- The synthetic assistant error text stored when the AI turn fails. -/
def errAssistantText (m : String) : String :=
  "Sorry, I encountered an error while processing your request: " ++ m ++ ". Please try again."

/-- sendMessage from ChatInterface.tsx as a pure state transformer over the
injected collaborator outcomes, mirroring the source control flow: input
guard; optimistic user placeholder; user-message persist (failure aborts via
the outer catch); authoritative re-fetch; decode history to text; thinking
placeholder; provider dispatch by mode (missing Groq key and unavailable
Ollama throw before any call; Ollama errors are wrapped); on success persist
the assistant message, splice it in, and rename a default-titled chat after
the first exchange; on any inner failure store a synthetic assistant error
message. -/
def sendMessage (env : SendEnv) (st : SendState) (content : String)
    (images : Option (List String)) : SendResult :=
  if (jsTrimEmpty content && (images.getD []).isEmpty) || !env.userPresent || !env.chatPresent then
    ⟨st.messages, st.error, st.sending, []⟩
  else
    let userContent := encodeContent content (images.getD [])
    let tempUser : Msg := ⟨env.refUser, none, "user", userContent, none⟩
    let msgs1 := st.messages ++ [tempUser]
    let ev1 : List Event := [.insertMessage "user" userContent]
    match env.storeUser with
    | .error e => ⟨msgs1, some ("Error sending message: " ++ e), false, ev1⟩
    | .ok rows =>
      let msgs2 := match rows with
        | [] => msgs1
        | r :: _ => msgs1.map (fun m => if m.ref == env.refUser then r else m)
      let ev2 := ev1 ++ [.fetchMessages]
      match env.fetchAll with
      | .error e => ⟨msgs2, some ("Error sending message: " ++ e), false, ev2⟩
      | .ok all =>
        let processed := all.map (fun m => ChatMsg.mk m.role (parseMessageContent m.content).text)
        let tempAi : Msg := ⟨env.refAi, none, "assistant", "...",
          some (if st.mode = Mode.online then "groq-thinking" else "ollama-thinking")⟩
        let msgs3 := msgs2 ++ [tempAi]
        let ev3 := ev2 ++ [.addThinkingPlaceholder]
        let inner : List Event × Except String String :=
          if st.mode = Mode.online then
            if !env.groqKeyPresent then
              ([], .error "Please set a valid Groq Chat API key in your .env file")
            else
              ([.providerCall "groq"],
                match groqApiMessages processed images with
                | none => .error "Cannot read properties of undefined (reading 'content')"
                | some _ => env.complete)
          else
            if !st.ollamaAvailable then
              ([], .error "Ollama is not running. Please start Ollama and try again.")
            else
              ([.providerCall "ollama"],
                match env.complete with
                | .error e => .error ("Failed to get response from Ollama: " ++ e)
                | .ok r => .ok r)
        match inner.2 with
        | .ok aiResponse =>
          let msgs4 := msgs3.filter (fun m => m.ref != env.refAi)
          let ev4 := ev3 ++ inner.1 ++ [.insertMessage "assistant" aiResponse]
          match env.storeAssistant with
          | .error e =>
            let msgs5 := msgs4.filter (fun m => m.ref != env.refAi)
            let ev5 := ev4 ++ [.insertMessage "assistant" (errAssistantText e)]
            match env.storeErrorMsg with
            | .ok (r :: _) => ⟨msgs5 ++ [r], some ("AI response error: " ++ e), false, ev5⟩
            | _ => ⟨msgs5, some ("AI response error: " ++ e), false, ev5⟩
          | .ok aiRows =>
            let msgs5 := match aiRows with
              | [] => msgs4
              | r :: _ => msgs4.filter (fun m => m.ref != env.refAi) ++ [r]
            if processed.length ≤ 2 then
              let ev5 := ev4 ++ [.fetchChatTitle]
              match env.chatTitle with
              | .ok title =>
                if title = "New Chat" then
                  let newTitle := if content.length > 30
                    then String.mk (content.data.take 30) ++ "..."
                    else content
                  ⟨msgs5, none, false, ev5 ++ [.updateChatTitle newTitle]⟩
                else ⟨msgs5, none, false, ev5⟩
              | .error _ => ⟨msgs5, none, false, ev5⟩
            else ⟨msgs5, none, false, ev4⟩
        | .error e =>
          let msgs4 := msgs3.filter (fun m => m.ref != env.refAi)
          let ev4 := ev3 ++ inner.1 ++ [.insertMessage "assistant" (errAssistantText e)]
          match env.storeErrorMsg with
          | .ok (r :: _) => ⟨msgs4 ++ [r], some ("AI response error: " ++ e), false, ev4⟩
          | _ => ⟨msgs4, some ("AI response error: " ++ e), false, ev4⟩

/-- Result of toggleMode: the resulting mode, the surfaced error if any, and
the preference writes issued. -/
structure ToggleResult where
  mode : Mode
  error : Option String
  persistedModes : List Mode
deriving Repr, DecidableEq

/-- toggleMode from ChatInterface.tsx: switching away from online while
Ollama's cached availability flag is false is rejected with an error and
nothing is persisted; otherwise the mode flips and, when a user is present,
the preference is written. -/
def toggleMode (mode : Mode) (ollamaAvailable : Bool) (userPresent : Bool) : ToggleResult :=
  if mode = Mode.online ∧ ¬ ollamaAvailable then
    ⟨mode, some "Ollama is not running. Please start Ollama before switching to offline mode.", []⟩
  else
    let newMode := if mode = Mode.online then Mode.offline else Mode.online
    ⟨newMode, none, if userPresent then [newMode] else []⟩

/-- The `disabled` prop ChatInterface passes to MessageInput. -/
def messageInputDisabled (sending : Bool) (mode : Mode) (ollamaAvailable : Bool) : Bool :=
  sending || (mode == Mode.offline && !ollamaAvailable)

/-- handleSend from MessageInput: invoke onSendMessage only when there is
content and the input is not disabled; images are passed only when present. -/
def handleSend (message : String) (images : List String) (disabled : Bool) :
    Option (String × Option (List String)) :=
  if (!(jsTrimEmpty message) || images.length > 0) && !disabled then
    some (message, if images.length > 0 then some images else none)
  else none

/-- A Send request through the UI entry point: MessageInput's handleSend with
the disabled prop computed from the session state, then sendMessage when the
request is let through; a rejected request changes nothing and emits no
events. -/
def sendRequest (env : SendEnv) (st : SendState) (message : String)
    (images : List String) : SendResult :=
  match handleSend message images (messageInputDisabled st.sending st.mode st.ollamaAvailable) with
  | none => ⟨st.messages, st.error, st.sending, []⟩
  | some (c, imgs) => sendMessage env st c imgs

/-- The fields of a browser File consumed by isValidImageFile. -/
structure JsFile where
  type : String
  size : Nat
deriving Repr, DecidableEq

/-- The JavaScript `string.startsWith(p)` test. -/
def jsStartsWith (s p : String) : Bool :=
  p.data.isPrefixOf s.data

/-- isValidImageFile from imagehandling.ts: reject non-image MIME types, then
reject files over 4MB, accept the rest. -/
def isValidImageFile (file : JsFile) : Bool :=
  if !(jsStartsWith file.type "image/") then false
  else if file.size > 4 * 1024 * 1024 then false
  else true

/-- A plain-text message whose content happens to be shaped like a structured
encoding; used to exhibit the round-trip failure of the codec. -/
def structuredPlain : String :=
  "\x7b\"text\":\"a\"\x7d"

/-- An eleven-message history, longer than the ten-message window. -/
def elevenUserMsgs : List ChatMsg :=
  List.replicate 11 ⟨"user", .str "m"⟩

/-- What the Remote client sends for that history with no images attached. -/
def elevenTextApiMsgs : List ApiMsg :=
  List.replicate 11 ⟨"user", .plain (.str "m")⟩

/-- Any string that takes the fallback branch of parseMessageContent leaves
it unchanged with no images. -/
theorem decode_fallback_of_not_structured (s : String) (h : looksStructured s = false) :
    parseMessageContent s = ⟨.str s, []⟩ := by
  unfold looksStructured at h
  unfold parseMessageContent
  by_cases hc : (startsWithLBrace s && endsWithRBrace s) = true
  · rw [if_pos hc]
    simp only [Bool.and_eq_true] at hc
    rw [Bool.and_assoc, hc.1, hc.2] at h
    simp only [Bool.true_and] at h
    cases hj : jsonParse s with
    | none => rfl
    | some v =>
      rw [hj] at h
      dsimp only at h
      cases hg : getField v "text" with
      | none =>
        dsimp only
        rw [hg]
      | some t =>
        rw [hg] at h
        simp at h
  · rw [if_neg hc]

/-- C2: for every string that does not take the structured-decode path
(brace-delimited, JSON-parseable, with a text field), parseMessageContent
returns the string itself with an empty image list. The strings the claim
quantifies over — those that do not parse as the structured form or lack a
text field — are a subset of these. -/
theorem claim2_decode_fallback (s : String) (h : looksStructured s = false) :
    parseMessageContent s = ⟨.str s, []⟩ :=
  decode_fallback_of_not_structured s h

/-- C2 witness: a brace-delimited string that is not valid JSON decodes to
itself with no images. -/
theorem claim2_decode_fallback_witness :
    looksStructured "\x7bnot json\x7d" = false ∧
      parseMessageContent "\x7bnot json\x7d" = ⟨.str "\x7bnot json\x7d", []⟩ :=
  ⟨by decide, claim2_decode_fallback "\x7bnot json\x7d" (by decide)⟩

/-- C1 (amended): encode with zero images always returns the text unchanged,
and the round-trip decode(encode(t, [])) = (t, []) holds for every text t
that does not itself take the structured-decode path; a text that is shaped
like and parses as a structured encoding is decoded instead of returned
verbatim. -/
theorem claim1_roundtrip_amended (t : String) (h : looksStructured t = false) :
    encodeContent t [] = t ∧ parseMessageContent (encodeContent t []) = ⟨.str t, []⟩ :=
  ⟨rfl, decode_fallback_of_not_structured t h⟩

/-- C1 witness: an ordinary text round-trips through the plain form. -/
theorem claim1_roundtrip_witness :
    looksStructured "hello" = false ∧
      (encodeContent "hello" [] = "hello" ∧
        parseMessageContent (encodeContent "hello" []) = ⟨.str "hello", []⟩) :=
  ⟨by decide, claim1_roundtrip_amended "hello" (by decide)⟩

/-- C1 counterexample: the text `\x7b"text":"a"\x7d` with zero images is
encoded as itself (plain form), but decoding it yields the parsed structure
("a", []) rather than the original text, so the round-trip claimed for every
plain-text message fails. -/
theorem claim1_counterexample :
    ¬ (encodeContent structuredPlain [] = structuredPlain ∧
       parseMessageContent (encodeContent structuredPlain []) =
         ⟨.str structuredPlain, []⟩) := by
  intro hcl
  have h2 := hcl.2
  have he : parseMessageContent (encodeContent structuredPlain []) = ⟨.str "a", []⟩ := by rfl
  rw [he] at h2
  have h3 : JsonValue.str "a" = JsonValue.str structuredPlain :=
    congrArg MessageContent.text h2
  injection h3 with h4
  exact absurd h4 (by decide)

/-- The slice(-10) window never holds more than ten messages. -/
theorem length_jsSlice10 {α : Type} (l : List α) : (jsSlice10 l).length ≤ 10 := by
  simp only [jsSlice10, List.length_drop]
  omega

/-- C3 (amended): the Local client's request always holds at most the ten
most recent history messages; the Remote client's request does so only when
images are attached — with no images it holds the entire history, one text
message per history message. -/
theorem claim3_context_window_amended (msgs : List ChatMsg) (model : String) :
    (∀ imgs req, ollamaChatMessages msgs model imgs = some req → req.length ≤ 10) ∧
    (∀ l req, groqApiMessages msgs (some l) = some req → l ≠ [] → req.length ≤ 10) ∧
    (∀ req, groqApiMessages msgs none = some req →
      req = msgs.map toTextApiMsg ∧ req.length = msgs.length) := by
  have h10 := length_jsSlice10 msgs
  refine ⟨?_, ?_, ?_⟩
  · intro imgs req hreq
    unfold ollamaChatMessages at hreq
    dsimp only at hreq
    split at hreq
    · split at hreq
      · exact absurd hreq (by simp)
      · injection hreq with h
        subst h
        simp only [List.length_append, List.length_map, List.length_dropLast,
          List.length_cons, List.length_nil]
        omega
    · injection hreq with h
      subst h
      simpa using h10
  · intro l req hreq hl
    unfold groqApiMessages at hreq
    dsimp only at hreq
    split at hreq
    · split at hreq
      · exact absurd hreq (by simp)
      · injection hreq with h
        subst h
        simp only [List.length_append, List.length_map, List.length_dropLast,
          List.length_cons, List.length_nil]
        omega
    · rename_i hcond
      exact absurd hcond (by simp [List.length_pos_iff_ne_nil, hl])
  · intro req hreq
    unfold groqApiMessages at hreq
    simp only [Option.getD_none, List.length_nil, gt_iff_lt, Nat.lt_irrefl,
      if_false, decide_False, Bool.false_eq_true] at hreq
    injection hreq with h
    subst h
    simp

/-- C3 witness: on a one-message history, the Local request, the Remote
request with an image, and the image-free Remote request all satisfy the
stated bounds. -/
theorem claim3_context_window_witness :
    ([(⟨"user", ApiContent.plain (JsonValue.str "hi")⟩ : ApiMsg)].length ≤ 10) ∧
    ([(⟨"user", ApiContent.parts [.text (JsonValue.str "hi"), .imageUrl "img"]⟩ : ApiMsg)].length ≤ 10) ∧
    ([(⟨"user", ApiContent.plain (JsonValue.str "hi")⟩ : ApiMsg)] =
        [(⟨"user", JsonValue.str "hi"⟩ : ChatMsg)].map toTextApiMsg ∧
      [(⟨"user", ApiContent.plain (JsonValue.str "hi")⟩ : ApiMsg)].length =
        [(⟨"user", JsonValue.str "hi"⟩ : ChatMsg)].length) :=
  ⟨(claim3_context_window_amended [⟨"user", .str "hi"⟩] "x").1 none _ rfl,
   (claim3_context_window_amended [⟨"user", .str "hi"⟩] "x").2.1 ["img"] _ rfl (by simp),
   (claim3_context_window_amended [⟨"user", .str "hi"⟩] "x").2.2 _ rfl⟩

/-- C3 counterexample: with an eleven-message history and no images, the
Remote client's request carries all eleven messages, exceeding the claimed
ten-message cap. -/
theorem claim3_counterexample :
    groqApiMessages elevenUserMsgs none = some elevenTextApiMsgs ∧
    elevenTextApiMsgs.length = 11 ∧ ¬ (elevenTextApiMsgs.length ≤ 10) :=
  ⟨rfl, by simp [elevenTextApiMsgs], by simp [elevenTextApiMsgs]⟩

/-- C4: merging an inbound insert whose identifier already occurs in the
in-memory sequence leaves the sequence unchanged; otherwise the record is
appended exactly once at the end. -/
theorem claim4_merge_idempotent (prev : List Msg) (newMessage : Msg) :
    ((∃ m ∈ prev, m.id = newMessage.id) → mergeMessage prev newMessage = prev) ∧
    (¬ (∃ m ∈ prev, m.id = newMessage.id) →
      mergeMessage prev newMessage = prev ++ [newMessage]) := by
  constructor
  · intro hex
    unfold mergeMessage
    rw [if_pos]
    rw [List.any_eq_true]
    obtain ⟨m, hm, hid⟩ := hex
    exact ⟨m, hm, by simp [hid]⟩
  · intro hnex
    unfold mergeMessage
    rw [if_neg]
    intro hany
    rcases List.any_eq_true.mp hany with ⟨m, hm, hid⟩
    exact hnex ⟨m, hm, by simpa using hid⟩

/-- C4 witness: a duplicate-identifier event is a no-op; a fresh-identifier
event is appended once. -/
theorem claim4_merge_witness :
    mergeMessage [⟨0, some 1, "user", "a", none⟩] ⟨1, some 1, "user", "a", none⟩ =
        [⟨0, some 1, "user", "a", none⟩] ∧
    mergeMessage [⟨0, some 1, "user", "a", none⟩] ⟨1, some 2, "user", "b", none⟩ =
        [⟨0, some 1, "user", "a", none⟩, ⟨1, some 2, "user", "b", none⟩] :=
  ⟨(claim4_merge_idempotent _ _).1 ⟨⟨0, some 1, "user", "a", none⟩, by simp, rfl⟩,
   (claim4_merge_idempotent _ _).2 (by simp)⟩

/-- C6: while a Send is in flight (sending = true), a second Send request is
rejected at the input layer: the component state is unchanged and no events
— in particular no persistence writes and no provider calls — are emitted,
and nothing is queued. -/
theorem claim6_send_rejected_while_sending (env : SendEnv) (msgs : List Msg)
    (mode : Mode) (avail : Bool) (err : Option String) (message : String)
    (images : List String) :
    sendRequest env ⟨msgs, mode, true, avail, err⟩ message images =
      ⟨msgs, err, true, []⟩ := by
  unfold sendRequest handleSend messageInputDisabled
  simp

/-- C8: a switch out of online mode while the cached Ollama availability
flag is false is rejected with the user-visible error, the mode stays
online, and no preference write is issued. -/
theorem claim8_offline_switch_rejected (userPresent : Bool) :
    toggleMode Mode.online false userPresent =
      ⟨Mode.online,
        some "Ollama is not running. Please start Ollama before switching to offline mode.",
        []⟩ := by
  rfl

/-- C10: a file passes isValidImageFile exactly when its MIME type starts
with image/ and its size is at most 4MB (4194304 bytes). -/
theorem claim10_image_validation (file : JsFile) :
    isValidImageFile file = true ↔
      (jsStartsWith file.type "image/" = true ∧ file.size ≤ 4 * 1024 * 1024) := by
  unfold isValidImageFile
  cases h1 : jsStartsWith file.type "image/" with
  | true =>
    by_cases h2 : file.size > 4 * 1024 * 1024
    · simp [h2]
    · simp [h2]
      omega
  | false => simp [h1]

/-- C10 witness: a small PNG is accepted. -/
theorem claim10_image_validation_witness :
    isValidImageFile ⟨"image/png", 1000⟩ = true :=
  (claim10_image_validation ⟨"image/png", 1000⟩).mpr ⟨by decide, by decide⟩

/-- C7 (amended): when the requested model is not among the freshly queried
installed models and at least one model is installed, the first installed
model is substituted and the call proceeds; when zero models are installed
the call fails, but with the generic server-unavailable error — the internal
no-models error is swallowed by the availability catch — not with a
distinct NoModelsAvailable error. -/
theorem claim7_model_substitution_amended :
    (∀ (first : String) (rest : List String) (m resp : String) (msgs : List ChatMsg),
      ((first :: rest).contains m) = false →
        resolveOllamaModel (.ok (some (first :: rest))) m = .ok first ∧
        getOllamaCompletion (.ok (some (first :: rest))) (.ok (some resp)) msgs m none =
          .ok resp) ∧
    (∀ (m : String) (chatResp : Except String (Option String)) (msgs : List ChatMsg),
      getOllamaCompletion (.ok (some [])) chatResp msgs m none =
        .error ollamaUnavailableMsg) := by
  constructor
  · intro first rest m resp msgs hmem
    have hres : resolveOllamaModel (.ok (some (first :: rest))) m = .ok first := by
      unfold resolveOllamaModel
      dsimp only
      rw [if_neg (by simpa using hmem)]
    refine ⟨hres, ?_⟩
    unfold getOllamaCompletion
    rw [hres]
    have hl : ollamaChatMessages msgs first none =
        some ((jsSlice10 msgs).map (fun mm => ApiMsg.mk (ollamaCleanRole mm.role) (.plain mm.content))) := by
      unfold ollamaChatMessages
      simp
    dsimp only
    rw [hl]
  · intro m chatResp msgs
    rfl

/-- C7 witness: a missing preferred model is substituted by the first
installed one and the completion succeeds; with zero installed models the
call fails with the generic unavailable error. -/
theorem claim7_model_substitution_witness :
    (resolveOllamaModel (.ok (some ["llama3"])) "gemma" = .ok "llama3" ∧
      getOllamaCompletion (.ok (some ["llama3"])) (.ok (some "hi")) [] "gemma" none =
        .ok "hi") ∧
    getOllamaCompletion (.ok (some [])) (.ok (some "hi")) [] "gemma" none =
      .error ollamaUnavailableMsg :=
  ⟨claim7_model_substitution_amended.1 "llama3" [] "gemma" "hi" [] (by decide),
   claim7_model_substitution_amended.2 "gemma" (.ok (some "hi")) []⟩

/-- C7 counterexample: with zero installed models the Local client's call
fails, but the surfaced error is the generic server-unavailable message, not
the NoModelsAvailable message the claim requires (that internal throw is
swallowed by the availability catch). -/
theorem claim7_counterexample :
    getOllamaCompletion (.ok (some [])) (.ok (some "hi")) [] "gemma3:4b-it-q4_K_M" none =
        .error ollamaUnavailableMsg ∧
    ollamaUnavailableMsg ≠ noModelsAvailableMsg ∧
    getOllamaCompletion (.ok (some [])) (.ok (some "hi")) [] "gemma3:4b-it-q4_K_M" none ≠
        .error noModelsAvailableMsg := by
  refine ⟨rfl, by decide, ?_⟩
  intro h
  injection h with h2
  exact absurd h2 (by decide)

/-- C5: if persisting the user message fails, the Send aborts through the
outer catch: the only event is the attempted user-message insert — so no
provider call is made and the thinking placeholder is never inserted — the
optimistic user placeholder is left in place at the end of the sequence (no
rollback), and the error is surfaced. -/
theorem claim5_abort_on_user_persist_failure (env : SendEnv) (st : SendState)
    (content : String) (images : Option (List String)) (e : String)
    (hguard : ((jsTrimEmpty content && (images.getD []).isEmpty) ||
        !env.userPresent || !env.chatPresent) = false)
    (hfail : env.storeUser = .error e) :
    sendMessage env st content images =
      ⟨st.messages ++
          [⟨env.refUser, none, "user", encodeContent content (images.getD []), none⟩],
        some ("Error sending message: " ++ e), false,
        [.insertMessage "user" (encodeContent content (images.getD []))]⟩ ∧
    ∀ ev ∈ (sendMessage env st content images).events,
      ev ≠ Event.addThinkingPlaceholder ∧ ∀ p, ev ≠ Event.providerCall p := by
  have hmain : sendMessage env st content images =
      ⟨st.messages ++
          [⟨env.refUser, none, "user", encodeContent content (images.getD []), none⟩],
        some ("Error sending message: " ++ e), false,
        [.insertMessage "user" (encodeContent content (images.getD []))]⟩ := by
    unfold sendMessage
    rw [hguard, if_neg (by simp), hfail]
  refine ⟨hmain, ?_⟩
  intro ev hev
  rw [hmain] at hev
  simp only [List.mem_singleton] at hev
  subst hev
  exact ⟨by simp, fun p => by simp⟩

/-- C5 witness: a failing user-message persist on a concrete Send leaves
only the attempted insert event, the optimistic placeholder, and the
surfaced error. -/
theorem claim5_abort_witness :
    sendMessage
        ⟨true, true, true, 100, 101, .error "boom", .ok [], .ok "r", .ok [],
          .ok "New Chat", .ok []⟩
        ⟨[], Mode.online, false, false, none⟩ "hi" none =
      ⟨[⟨100, none, "user", "hi", none⟩], some "Error sending message: boom", false,
        [.insertMessage "user" "hi"]⟩ :=
  (claim5_abort_on_user_persist_failure _ _ "hi" none "boom" (by decide) rfl).1

/-- C9: on a successful first exchange (authoritative history of at most two
messages) whose chat title is still the default, the Send persists a rename:
to the user's text when its length is at most 30, else to the first 30
characters of the text followed by an ellipsis marker. -/
theorem claim9_default_title_renamed (env : SendEnv) (st : SendState)
    (content : String) (images : Option (List String)) (all aiRows rows : List Msg)
    (resp : String)
    (hguard : ((jsTrimEmpty content && (images.getD []).isEmpty) ||
        !env.userPresent || !env.chatPresent) = false)
    (hstore : env.storeUser = .ok rows)
    (hfetch : env.fetchAll = .ok all)
    (hmode : st.mode = Mode.online)
    (hkey : env.groqKeyPresent = true)
    (ham : ∃ am, groqApiMessages
      (all.map (fun m => ChatMsg.mk m.role (parseMessageContent m.content).text)) images =
        some am)
    (hcomplete : env.complete = .ok resp)
    (hai : env.storeAssistant = .ok aiRows)
    (hlen : all.length ≤ 2)
    (htitle : env.chatTitle = .ok "New Chat") :
    (content.length ≤ 30 →
      Event.updateChatTitle content ∈ (sendMessage env st content images).events) ∧
    (content.length > 30 →
      Event.updateChatTitle (String.mk (content.data.take 30) ++ "...") ∈
        (sendMessage env st content images).events) := by
  obtain ⟨am, ham2⟩ := ham
  have hev : (sendMessage env st content images).events =
      [.insertMessage "user" (encodeContent content (images.getD [])), .fetchMessages,
        .addThinkingPlaceholder, .providerCall "groq", .insertMessage "assistant" resp,
        .fetchChatTitle,
        .updateChatTitle (if content.length > 30
          then String.mk (content.data.take 30) ++ "..." else content)] := by
    unfold sendMessage
    rw [hguard, if_neg (by simp), hstore, hfetch]
    simp only [hmode, hkey, ham2, hcomplete, hai, htitle, List.length_map,
      eq_self_iff_true, if_true, Bool.not_true, Bool.false_eq_true, if_false]
    rw [if_pos hlen]
    simp
  constructor
  · intro h
    rw [hev]
    have ht : (if content.length > 30
        then String.mk (content.data.take 30) ++ "..." else content) = content :=
      if_neg (by omega)
    rw [ht]
    simp
  · intro h
    rw [hev]
    have ht : (if content.length > 30
        then String.mk (content.data.take 30) ++ "..." else content) =
        String.mk (content.data.take 30) ++ "..." :=
      if_pos h
    rw [ht]
    simp

/-- C9 witness: a first exchange with user text Hello (length at most 30)
renames the default title to Hello. -/
theorem claim9_default_title_witness :
    Event.updateChatTitle "Hello" ∈
      (sendMessage
        ⟨true, true, true, 100, 101, .ok [], .ok [⟨1, some 1, "user", "Hello", none⟩],
          .ok "Hi there", .ok [], .ok "New Chat", .ok []⟩
        ⟨[], Mode.online, false, false, none⟩ "Hello" none).events :=
  (claim9_default_title_renamed _ _ "Hello" none [⟨1, some 1, "user", "Hello", none⟩]
      [] [] "Hi there" (by decide) rfl rfl rfl rfl ⟨_, rfl⟩ rfl rfl (by decide) rfl).1
    (by decide)

end Fyp
